import Mathlib

/-!
# tidymeup: command actions of `main.go`

A shallow embedding of the three command actions declared in `main.go`
(`run`, `rescan`, `fixdb`), of the flag lookup they perform on the CLI
context, and of the SQL statement that `fixdb` executes.

* Go `error` results are `Option String` (`none` is `nil`).
* Calls into code outside `main.go` (`TidyRoutine`, `PrintAppStats`, `InitDb`,
  `Exec`, printing) are recorded, in program order, in an effect trace.
* The filesystem (`IsDir`, `filepath.Abs`), the clock and the producer side of
  the progress channel are parameters of the actions.
-/

namespace Tidymeup

/-! ## The SQL function `REPLACE(X, Y, Z)` -/

/-- The scanning loop of `REPLACE(X, Y, Z)`: walk `X` from left to right; at a
position where `Y` starts, emit `Z` and skip the remaining `|Y| - 1` characters
of the match, otherwise copy the character. `skip` is the number of characters
of the current match that are still to be skipped. -/
def replaceLoop (pat rep : List Char) : Nat → List Char → List Char
  | _, [] => []
  | skip + 1, _ :: cs => replaceLoop pat rep skip cs
  | 0, c :: cs =>
    if pat.isPrefixOf (c :: cs) then rep ++ replaceLoop pat rep (pat.length - 1) cs
    else c :: replaceLoop pat rep 0 cs

/-- `REPLACE(X, Y, Z)` on character lists: every occurrence of `Y` in `X` is
substituted by `Z`; an empty `Y` returns `X` unchanged. -/
def sqlReplaceChars (x pat rep : List Char) : List Char :=
  if pat.isEmpty then x else replaceLoop pat rep 0 x

/-- `REPLACE(X, Y, Z)` on strings. The pattern used by the program is ASCII,
so scanning characters and scanning UTF-8 bytes find the same matches. -/
def sqlReplace (x pat rep : String) : String :=
  ⟨sqlReplaceChars x.data pat.data rep.data⟩

/-- The expression of the statement run by `fixdb`: `REPLACE` of the stored
path with pattern `/.` and replacement `.`. -/
def fixdbRewrite (path : String) : String :=
  sqlReplace path "/." "."

/-- Left-to-right, non-overlapping replacement of the two characters `/.` by
the single character `.`, written directly on the character list. -/
def replaceSlashDot : List Char → List Char
  | '/' :: '.' :: rest => '.' :: replaceSlashDot rest
  | c :: rest => c :: replaceSlashDot rest
  | [] => []

/-- The rewrite in the words of the specification, on a stored path. -/
def replaceSlashDotPath (p : String) : String :=
  ⟨replaceSlashDot p.data⟩

/-! ## CLI contexts and flag lookup -/

/-- The value held by a declared flag (`BoolFlag`, `UintFlag`, `StringFlag`). -/
inductive FlagValue where
  | bool (b : Bool)
  | uint (n : Nat)
  | str (s : String)
  deriving DecidableEq, Repr

/-- The text of a flag value, `Value.String()`. -/
def FlagValue.text : FlagValue → String
  | .bool true => "true"
  | .bool false => "false"
  | .uint n => toString n
  | .str s => s

/-- A flag set: the flags defined at one level of the command line, by name
(aliases are names of their own), with the value parsed for each. -/
abbrev FlagSet := List (String × FlagValue)

/-- A CLI context as seen by an action: the positional arguments and the flag
sets of the lineage, the own flag set of the command first, the one of the app
last. -/
structure Context where
  args : List String
  lineage : List FlagSet

/-- The accessor `c.NArg()`. -/
def Context.NArg (c : Context) : Nat := c.args.length

/-- The accessor `c.Args().Get(i)`: the empty string when out of range. -/
def Context.argGet (c : Context) (i : Nat) : String := c.args.getD i ""

/-- The accessor `c.Args().First()`. -/
def Context.argFirst (c : Context) : String := c.argGet 0

/-- The flag set that decides a name: the nearest one in the lineage that
defines it. -/
def Context.lookupFlagSet (c : Context) (name : String) : Option FlagSet :=
  c.lineage.find? (fun fs => (fs.lookup name).isSome)

/-- The text of the flag `name` in the flag set that decides it. -/
def Context.lookupText (c : Context) (name : String) : Option String :=
  match c.lookupFlagSet name with
  | some fs => (fs.lookup name).map FlagValue.text
  | none => none

/-- The function `strconv.ParseBool`. -/
def parseBool (s : String) : Option Bool :=
  if s ∈ ["1", "t", "T", "TRUE", "true", "True"] then some true
  else if s ∈ ["0", "f", "F", "FALSE", "false", "False"] then some false
  else none

/-- The accessor `c.Bool(name)`: `false` when no flag set defines the name or
the text does not parse. -/
def Context.boolFlag (c : Context) (name : String) : Bool :=
  match c.lookupText name with
  | some t => (parseBool t).getD false
  | none => false

/-- The accessor `c.String(name)`. -/
def Context.stringFlag (c : Context) (name : String) : String :=
  (c.lookupText name).getD ""

/-- The accessor `c.Int(name)`, over the library function `strconv.ParseInt`
(base 0, 64 bits) taken as `parseInt`: `0` when the name is undefined or the
text does not parse. -/
def Context.intFlag (parseInt : String → Option Int) (c : Context) (name : String) : Int :=
  match c.lookupText name with
  | some t => (parseInt t).getD 0
  | none => 0

/-- The app-level flags (`app.Flags`), with the values given before the
command name; each defaults to `false`. -/
def appFlagSet (dryRun quiet : Bool) : FlagSet :=
  [("dry-run", .bool dryRun), ("d", .bool dryRun),
   ("quiet", .bool quiet), ("q", .bool quiet)]

/-- The values of the flags of the `run` command given after the command
name. -/
structure RunOptions where
  dryRun : Bool := false
  quiet : Bool := false
  limit : Nat := 0
  extensions : String := ""
  type : String := ""
  fixDates : Bool := false
  dbOnly : Bool := false
  thumbnails : Bool := false
  move : Bool := false
  exclude : String := ""

/-- The flags declared by the `run` command. -/
def runFlagSet (o : RunOptions) : FlagSet :=
  [("dry-run", .bool o.dryRun), ("d", .bool o.dryRun),
   ("quiet", .bool o.quiet), ("q", .bool o.quiet),
   ("limit", .uint o.limit),
   ("extensions", .str o.extensions), ("ext", .str o.extensions),
   ("type", .str o.type),
   ("fix-dates", .bool o.fixDates), ("f", .bool o.fixDates),
   ("db-only", .bool o.dbOnly),
   ("thumbnails", .bool o.thumbnails),
   ("move", .bool o.move), ("m", .bool o.move),
   ("exclude", .str o.exclude)]

/-- The context handed to the action of `run`. -/
def runCliContext (globalDryRun globalQuiet : Bool) (o : RunOptions) (args : List String) :
    Context :=
  { args := args, lineage := [runFlagSet o, appFlagSet globalDryRun globalQuiet] }

/-- The context handed to the actions of `rescan` and `fixdb`, which declare
no flag of their own. -/
def plainCliContext (globalDryRun globalQuiet : Bool) (args : List String) : Context :=
  { args := args, lineage := [[], appFlagSet globalDryRun globalQuiet] }

/-! ## The data handled by the actions -/

/-- The run context `AppContext`, with the fields that `main.go` assigns. The
zero value of Go is the default of each field. -/
structure AppContext where
  StartTime : Nat := 0
  SrcDir : String := ""
  DestDir : String := ""
  DryRun : Bool := false
  Limit : Int := 0
  CustomExtensions : String := ""
  CustomMediaType : String := ""
  CustomExclude : String := ""
  FixCreationDates : Bool := false
  CreateDbOnly : Bool := false
  CreateThumbnails : Bool := false
  MoveFiles : Bool := false
  Quiet : Bool := false
  deriving DecidableEq, Repr

/-- Modelled from the spec: the declaration of `AppRunStats` is not part of
`main.go`; section 3 of the specification lists its counters (scanned,
imported, skipped, failed, bytesMoved). The zero value is `AppRunStats{}`. -/
structure AppRunStats where
  scanned : Nat := 0
  imported : Nat := 0
  skipped : Nat := 0
  failed : Nat := 0
  bytesMoved : Nat := 0
  deriving DecidableEq, Repr

/-- The progress event `FileMeta`; `main.go` reads its field `Path` only. -/
structure FileMeta where
  Path : String
  deriving DecidableEq, Repr

/-- What the action sees from outside `main.go`: `IsDir`, `filepath.Abs`
(its error is discarded by the action), `time.Now()` and
`strconv.ParseInt`. -/
structure World where
  isDir : String → Bool
  abs : String → String
  now : Nat
  parseInt : String → Option Int

/-- One row of the table `files`; `other` holds the columns besides `path`. -/
structure FileRow where
  path : String
  other : List (String × String) := []
  deriving DecidableEq, Repr

/-- The index opened by `InitDb`: the rows of `files`, and the error, if any,
with which the storage engine answers a statement. -/
structure IndexDb where
  rows : List FileRow
  execError : Option String := none
  deriving DecidableEq, Repr

/-- A call that leaves `main.go`, as recorded in the trace of an action. -/
inductive Effect where
  | makeChan
  | goTidyRoutine (ctx : AppContext)
  | printAppStats (label : String) (stats : AppRunStats) (ctx : AppContext)
  | println
  | printTook (start : Nat)
  | initDb (ctx : AppContext)
  | exec (sql : String)
  deriving DecidableEq, Repr

/-- How an action ends: it returns its `error`, or `Catch` stops the process
on a non-nil error. -/
inductive Outcome where
  | returned (err : Option String)
  | aborted (msg : String)
  deriving DecidableEq, Repr

/-- The run of an action: the calls it made, in order, and how it ended. -/
structure ActionRun where
  trace : List Effect
  outcome : Outcome
  deriving DecidableEq, Repr

/-- What the producer `TidyRoutine` does to the channel between two moments
at which the consumer could receive: nothing yet (the receive stays blocked),
or a send of one event; `stats` is the value of the shared `AppRunStats` that
the consumer reads when it handles that event. The end of the list is the
close of the channel. -/
inductive ChanStep where
  | idle
  | send (m : FileMeta) (stats : AppRunStats)
  deriving DecidableEq, Repr

/-- The events carried by a feed, in order. -/
def feedEvents : List ChanStep → List (FileMeta × AppRunStats)
  | [] => []
  | .idle :: rest => feedEvents rest
  | .send m s :: rest => (m, s) :: feedEvents rest

/-! ## The action of `run` -/

/-- The context built by the action of `run` (assignments to `ctx`). -/
def runContext (w : World) (c : Context) : AppContext :=
  { StartTime := w.now
    SrcDir := w.abs (c.argGet 0)
    DestDir := w.abs (c.argGet 1)
    DryRun := c.boolFlag "dry-run"
    Limit := c.intFlag w.parseInt "limit"
    CustomExtensions := c.stringFlag "extensions"
    CustomMediaType := c.stringFlag "type"
    CustomExclude := c.stringFlag "exclude"
    FixCreationDates := c.boolFlag "fix-dates"
    CreateDbOnly := c.boolFlag "db-only"
    CreateThumbnails := c.boolFlag "thumbnails"
    MoveFiles := c.boolFlag "move"
    Quiet := c.boolFlag "quiet" }

/-- The consumer loop `for { meta, isOk := <-fileMetaChan; ... }`: a receive
on a channel with nothing to receive stays blocked, a received event is
printed with the stats read at that moment, the close ends the loop. -/
def consume (ctx : AppContext) : List ChanStep → List Effect
  | [] => []
  | .idle :: rest => consume ctx rest
  | .send m stats :: rest => .printAppStats m.Path stats ctx :: consume ctx rest

/-- The action of `run`. `feed` is what the producer does to the channel
until it closes it, `finalStats` the value of the stats after the close. -/
def runAction (w : World) (c : Context) (feed : List ChanStep) (finalStats : AppRunStats) :
    ActionRun :=
  if c.NArg = 0 then
    ⟨[], .returned (some "Source and destination directory arguments are missing.")⟩
  else if c.NArg < 2 then
    ⟨[], .returned (some "Destination directory argument is missing.")⟩
  else
    let ctx := runContext w c
    if !w.isDir ctx.SrcDir then
      ⟨[], .returned (some "Source directory does not exist.")⟩
    else if ctx.SrcDir = ctx.DestDir then
      ⟨[], .returned (some "Source and destination directories cannot be the same.")⟩
    else
      ⟨[.makeChan, .goTidyRoutine ctx] ++ consume ctx feed ++
          [.printAppStats "--" finalStats ctx, .println, .printTook ctx.StartTime],
        .returned none⟩

/-! ## The action of `rescan` -/

/-- The context built by the action of `rescan`. -/
def rescanContext (w : World) (c : Context) : AppContext :=
  { SrcDir := c.argFirst
    DestDir := c.argFirst
    StartTime := w.now
    DryRun := c.boolFlag "dry-run"
    Quiet := c.boolFlag "quiet" }

/-- The action of `rescan`: after the check of its argument it builds its
context and returns `nil`. -/
def rescanAction (w : World) (c : Context) : ActionRun :=
  let targetDir := c.argFirst
  if targetDir = "" || !w.isDir targetDir then
    ⟨[], .returned (some "The given directory does not exist or it is not a directory.")⟩
  else
    let _ctx := rescanContext w c
    ⟨[], .returned none⟩

/-! ## The action of `fixdb` -/

/-- The context built by the action of `fixdb`. -/
def fixdbContext (c : Context) : AppContext :=
  { SrcDir := c.argFirst, DestDir := c.argFirst }

/-- The statement executed by `fixdb`. -/
def fixdbStatement : String := "UPDATE files SET path = REPLACE(path, \'/.\',\'.\')"

/-- The execution of `fixdbStatement` on the index: an `UPDATE` without
`WHERE`, so every row gets the rewritten path; when the engine fails the
rows stay as they are and the error is the result. -/
def execFixdb (db : IndexDb) : IndexDb × Option String :=
  match db.execError with
  | some e => (db, some e)
  | none => ({ db with rows := db.rows.map (fun r => { r with path := fixdbRewrite r.path }) }, none)

/-- Modelled from the spec: the helper `Catch` is not part of `main.go`;
section 4.3 of the specification makes every storage-engine error fatal: the
run aborts with the message. On `nil` it does nothing (`main` calls it on the
results of `time.LoadLocation` and `app.Run` before and after every run). -/
def Catch (err : Option String) (k : Outcome) : Outcome :=
  match err with
  | some msg => .aborted msg
  | none => k

/-- The action of `fixdb` on the index that `InitDb` opens: the run of the
action and the index it leaves. -/
def fixdbAction (w : World) (c : Context) (db : IndexDb) : ActionRun × IndexDb :=
  let targetDir := c.argFirst
  if targetDir = "" || !w.isDir targetDir then
    (⟨[], .returned (some "The given directory does not exist or it is not a directory.")⟩, db)
  else
    let ctx := fixdbContext c
    let result := execFixdb db
    (⟨[.initDb ctx, .exec fixdbStatement], Catch result.2 (.returned none)⟩, result.1)

/-! ## Observations on traces -/

/-- The calls that launch or feed the pipeline: the creation of the channel,
the start of `TidyRoutine` and `PrintAppStats`. -/
def Effect.isPipelineCall : Effect → Bool
  | .makeChan => true
  | .goTidyRoutine _ => true
  | .printAppStats _ _ _ => true
  | _ => false

/-- The context handed over by a call, if it takes one. -/
def Effect.context : Effect → Option AppContext
  | .goTidyRoutine ctx => some ctx
  | .printAppStats _ _ ctx => some ctx
  | .initDb ctx => some ctx
  | _ => none

/-- The calls of `PrintAppStats` in a trace, in order: label and stats. -/
def printCalls : List Effect → List (String × AppRunStats)
  | [] => []
  | .printAppStats label stats _ :: rest => (label, stats) :: printCalls rest
  | _ :: rest => printCalls rest

/-- The index operations in a trace: `InitDb` and `Exec`. -/
def Effect.isIndexCall : Effect → Bool
  | .initDb _ => true
  | .exec _ => true
  | _ => false

/-! ## Lemmas on the rewrite of `fixdb` -/

theorem replaceLoop_slashDot (s : List Char) :
    replaceLoop ['/', '.'] ['.'] 0 s = replaceSlashDot s := by
  induction s using replaceSlashDot.induct with
  | case1 rest ih => simp [replaceLoop, replaceSlashDot, List.isPrefixOf, ih]
  | case2 c rest hne ih =>
    have hp : List.isPrefixOf ['/', '.'] (c :: rest) = false := by
      cases rest with
      | nil => simp [List.isPrefixOf]
      | cons d r =>
        simp only [List.isPrefixOf, Bool.and_true, Bool.and_eq_false_imp, beq_iff_eq]
        intro h1
        simp only [beq_eq_false_iff_ne, ne_eq]
        intro h2
        exact hne r h1.symm (by rw [h2])
    rw [replaceLoop, hp, replaceSlashDot, ih]
    · simp
    · exact hne
  | case3 => simp [replaceLoop, replaceSlashDot]

theorem fixdbRewrite_data (p : String) :
    (fixdbRewrite p).data = replaceSlashDot p.data := by
  show sqlReplaceChars p.data ['/', '.'] ['.'] = _
  simp [sqlReplaceChars, replaceLoop_slashDot]

theorem replaceSlashDot_of_absent (s : List Char) (h : ¬ ['/', '.'] <:+: s) :
    replaceSlashDot s = s := by
  induction s using replaceSlashDot.induct with
  | case1 rest ih =>
    exact absurd (List.infix_cons_iff.mpr (Or.inl (by simp))) h
  | case2 c rest hne ih =>
    rw [replaceSlashDot, ih]
    · intro hin
      exact h (List.infix_cons_iff.mpr (Or.inr hin))
    · exact hne
  | case3 => simp [replaceSlashDot]

theorem replaceSlashDot_head_dot (s t : List Char) (h : replaceSlashDot s = '.' :: t) :
    (∃ r, s = '/' :: '.' :: r) ∨ (∃ r, s = '.' :: r) := by
  induction s using replaceSlashDot.induct with
  | case1 rest _ => exact Or.inl ⟨rest, rfl⟩
  | case2 c rest hne _ =>
    rw [replaceSlashDot] at h
    · simp only [List.cons.injEq] at h
      exact Or.inr ⟨rest, by rw [h.1]⟩
    · exact hne
  | case3 => simp [replaceSlashDot] at h

theorem slashSlashDot_of_slashDot_after (s : List Char)
    (h : ['/', '.'] <:+: replaceSlashDot s) : ['/', '/', '.'] <:+: s := by
  induction s using replaceSlashDot.induct with
  | case1 rest ih =>
    rw [replaceSlashDot] at h
    rcases List.infix_cons_iff.mp h with hp | hi
    · simp at hp
    · exact List.infix_cons_iff.mpr (Or.inr (List.infix_cons_iff.mpr (Or.inr (ih hi))))
  | case2 c rest hne ih =>
    rw [replaceSlashDot] at h
    · rcases List.infix_cons_iff.mp h with hp | hi
      · obtain ⟨t, ht⟩ := hp
        simp only [List.cons_append, List.nil_append, List.cons.injEq] at ht
        obtain ⟨hc, ht⟩ := ht
        rcases replaceSlashDot_head_dot rest t ht.symm with ⟨r, hr⟩ | ⟨r, hr⟩
        · subst hr
          subst hc
          exact List.infix_cons_iff.mpr (Or.inl (by simp))
        · exact absurd hr (hne r hc.symm)
      · exact List.infix_cons_iff.mpr (Or.inr (ih hi))
    · exact hne
  | case3 => simp [replaceSlashDot] at h

theorem consume_eq_map (ctx : AppContext) (feed : List ChanStep) :
    consume ctx feed = (feedEvents feed).map (fun e => .printAppStats e.1.Path e.2 ctx) := by
  induction feed with
  | nil => rfl
  | cons st rest ih =>
    cases st with
    | idle => simpa [consume, feedEvents] using ih
    | send m stats => simp [consume, feedEvents, ih]

theorem printCalls_append (xs ys : List Effect) :
    printCalls (xs ++ ys) = printCalls xs ++ printCalls ys := by
  induction xs with
  | nil => rfl
  | cons e rest ih => cases e <;> simp [printCalls, ih]

theorem printCalls_consume (ctx : AppContext) (feed : List ChanStep) :
    printCalls (consume ctx feed) = (feedEvents feed).map (fun e => (e.1.Path, e.2)) := by
  induction feed with
  | nil => rfl
  | cons st rest ih =>
    cases st with
    | idle => simpa [consume, feedEvents] using ih
    | send m stats => simp [consume, feedEvents, printCalls, ih]

theorem runAction_of_valid (w : World) (c : Context) (feed : List ChanStep)
    (finalStats : AppRunStats) (hn : 2 ≤ c.NArg) (hd : w.isDir (w.abs (c.argGet 0)) = true)
    (hne : w.abs (c.argGet 0) ≠ w.abs (c.argGet 1)) :
    runAction w c feed finalStats =
      ⟨[.makeChan, .goTidyRoutine (runContext w c)] ++ consume (runContext w c) feed ++
          [.printAppStats "--" finalStats (runContext w c), .println, .printTook w.now],
        .returned none⟩ := by
  have h0 : ¬ c.NArg = 0 := by omega
  have h1 : ¬ c.NArg < 2 := by omega
  have h2 : (runContext w c).SrcDir = w.abs (c.argGet 0) := rfl
  have h3 : (runContext w c).DestDir = w.abs (c.argGet 1) := rfl
  have h4 : (runContext w c).StartTime = w.now := rfl
  simp only [runAction, h0, h1, h2, h3, h4, hd, hne, if_false, Bool.not_true, Bool.false_eq_true]

theorem runAction_of_error (w : World) (c : Context) (feed : List ChanStep)
    (finalStats : AppRunStats) (msg : String)
    (h : (runAction w c feed finalStats).outcome = .returned (some msg)) :
    (runAction w c feed finalStats).trace = [] := by
  simp only [runAction] at h ⊢
  split_ifs at h ⊢ <;> first | rfl | cases h

theorem runAction_of_invalid (w : World) (c : Context) (feed : List ChanStep)
    (finalStats : AppRunStats)
    (h : ¬ (2 ≤ c.NArg ∧ w.isDir (w.abs (c.argGet 0)) = true ∧
      w.abs (c.argGet 0) ≠ w.abs (c.argGet 1))) :
    (runAction w c feed finalStats).trace = [] := by
  simp only [runAction]
  split_ifs with h0 h1 h2 h3
  · rfl
  · rfl
  · rfl
  · rfl
  · exfalso
    apply h
    simp only [Bool.not_eq_true', Bool.not_eq_false] at h2
    exact ⟨by omega, h2, h3⟩

theorem fixdbRewrite_eq (p : String) : fixdbRewrite p = replaceSlashDotPath p := by
  have h := fixdbRewrite_data p
  cases hp : fixdbRewrite p with
  | mk d =>
    rw [hp] at h
    simp only at h
    simp [replaceSlashDotPath, h]

theorem fixdbAction_of_accepted (w : World) (c : Context) (db : IndexDb)
    (hdir : c.argFirst ≠ "") (hd : w.isDir c.argFirst = true) :
    fixdbAction w c db =
      (⟨[.initDb (fixdbContext c), .exec fixdbStatement],
          Catch (execFixdb db).2 (.returned none)⟩, (execFixdb db).1) := by
  simp [fixdbAction, hdir, hd]

/-! ## The claims -/

/-- C1, as stated, fails: the rewrite of `fixdb` does not turn the stored path
`/a/./b.jpg` into `/a/b.jpg`. -/
theorem fixdb_scenario_not_collapsed : fixdbRewrite "/a/./b.jpg" ≠ "/a/b.jpg" := by
  decide

/-- C1, amended: the rewrite of `fixdb` turns the stored path `/a/./b.jpg`
into `/a./b.jpg` (the one occurrence of `/.` becomes `.`, the slash after it
stays), as a string function and as the statement executed on an index that
holds this path. -/
theorem fixdb_scenario_result :
    fixdbRewrite "/a/./b.jpg" = "/a./b.jpg" ∧
    (execFixdb { rows := [{ path := "/a/./b.jpg" }] }).1.rows = [{ path := "/a./b.jpg" }] := by
  decide

/-- C2: the action of `run` returns a non-nil error exactly when fewer than
two positional arguments are given, or the absolutized source is not a
directory, or the absolutized source equals the absolutized destination; in
every other case, whatever the producer sends before it closes the channel,
it returns `nil`. -/
theorem run_error_iff_validation_fails (w : World) (c : Context) (feed : List ChanStep)
    (finalStats : AppRunStats) :
    ((∃ msg, (runAction w c feed finalStats).outcome = .returned (some msg)) ↔
      (c.NArg < 2 ∨ w.isDir (w.abs (c.argGet 0)) = false ∨
        w.abs (c.argGet 0) = w.abs (c.argGet 1))) ∧
    ((runAction w c feed finalStats).outcome = .returned none ↔
      ¬ (c.NArg < 2 ∨ w.isDir (w.abs (c.argGet 0)) = false ∨
        w.abs (c.argGet 0) = w.abs (c.argGet 1))) := by
  unfold runAction
  simp only [runContext]
  split_ifs with h0 h1 h2 h3
  · simp [h0]
  · simp [h1]
  · simp only [Bool.not_eq_true', Bool.not_eq_true] at h2
    simp [h2]
  · simp only [Bool.not_eq_true', Bool.not_eq_true, Bool.not_eq_false] at h2
    simp [h3]
  · simp only [Bool.not_eq_true', Bool.not_eq_true, Bool.not_eq_false] at h2
    simp [h2, h3]
    omega

/-- C3: an invocation of `run` that returns a validation error has made no
call at all before returning: its trace is empty, so it holds no creation of
the channel, no start of `TidyRoutine` and no call of `PrintAppStats`. -/
theorem run_validation_error_launches_nothing (w : World) (c : Context)
    (feed : List ChanStep) (finalStats : AppRunStats) (msg : String)
    (h : (runAction w c feed finalStats).outcome = .returned (some msg)) :
    (runAction w c feed finalStats).trace = [] ∧
    ∀ e ∈ (runAction w c feed finalStats).trace, e.isPipelineCall = false := by
  have ht := runAction_of_error w c feed finalStats msg h
  refine ⟨ht, ?_⟩
  intro e he
  rw [ht] at he
  cases he

/-- Witness of C3: a source that is not a directory. -/
theorem run_validation_error_launches_nothing_witness :
    (runAction ⟨fun _ => false, id, 0, fun _ => none⟩ (runCliContext false false {} ["/s", "/d"])
        [.send ⟨"/s/a.jpg"⟩ {}] {}).outcome
      = .returned (some "Source directory does not exist.") ∧
    ((runAction ⟨fun _ => false, id, 0, fun _ => none⟩ (runCliContext false false {} ["/s", "/d"])
        [.send ⟨"/s/a.jpg"⟩ {}] {}).trace = [] ∧
     ∀ e ∈ (runAction ⟨fun _ => false, id, 0, fun _ => none⟩
        (runCliContext false false {} ["/s", "/d"]) [.send ⟨"/s/a.jpg"⟩ {}] {}).trace,
      e.isPipelineCall = false) :=
  ⟨rfl, run_validation_error_launches_nothing _ _ _ _ _ rfl⟩

/-- C4: in an invocation of `run` that passes validation, the consumer calls
`PrintAppStats` once per event sent by the producer, in the order received and
with the path of that event, whatever idle moments lie between the sends, and
after the close of the channel it calls `PrintAppStats` exactly once more,
with the label `--`; all these calls come after the start of `TidyRoutine`. -/
theorem run_drains_channel_then_prints_final (w : World) (c : Context)
    (feed : List ChanStep) (finalStats : AppRunStats) (hn : 2 ≤ c.NArg)
    (hd : w.isDir (w.abs (c.argGet 0)) = true)
    (hne : w.abs (c.argGet 0) ≠ w.abs (c.argGet 1)) :
    printCalls (runAction w c feed finalStats).trace =
      (feedEvents feed).map (fun e => (e.1.Path, e.2)) ++ [("--", finalStats)] ∧
    (runAction w c feed finalStats).trace =
      [.makeChan, .goTidyRoutine (runContext w c)] ++
        (feedEvents feed).map (fun e => .printAppStats e.1.Path e.2 (runContext w c)) ++
        [.printAppStats "--" finalStats (runContext w c), .println, .printTook w.now] := by
  rw [runAction_of_valid w c feed finalStats hn hd hne]
  refine ⟨?_, ?_⟩
  · simp only [printCalls_append, printCalls_consume]
    simp [printCalls]
  · simp only [consume_eq_map]

/-- Witness of C4: two events with idle moments around them. -/
theorem run_drains_channel_then_prints_final_witness :
    printCalls (runAction ⟨fun _ => true, id, 0, fun _ => none⟩
        (runCliContext false false {} ["/s", "/d"])
        [.idle, .send ⟨"/s/a.jpg"⟩ { scanned := 1 }, .idle, .idle,
          .send ⟨"/s/b.jpg"⟩ { scanned := 2 }] { scanned := 2, failed := 1 }).trace
      = [("/s/a.jpg", { scanned := 1 }), ("/s/b.jpg", { scanned := 2 }),
          ("--", { scanned := 2, failed := 1 })] :=
  (run_drains_channel_then_prints_final ⟨fun _ => true, id, 0, fun _ => none⟩
    (runCliContext false false {} ["/s", "/d"])
    [.idle, .send ⟨"/s/a.jpg"⟩ { scanned := 1 }, .idle, .idle,
      .send ⟨"/s/b.jpg"⟩ { scanned := 2 }] { scanned := 2, failed := 1 }
    (by decide) rfl (by decide)).1

/-- C5: an invocation of `run` that passes validation returns `nil` once the
channel is closed, for every sequence of events and every value of the stats,
failed files included; its result is the same for any two of them. -/
theorem run_result_independent_of_events (w : World) (c : Context) (hn : 2 ≤ c.NArg)
    (hd : w.isDir (w.abs (c.argGet 0)) = true)
    (hne : w.abs (c.argGet 0) ≠ w.abs (c.argGet 1)) :
    (∀ feed finalStats, (runAction w c feed finalStats).outcome = .returned none) ∧
    ∀ feed finalStats feed2 finalStats2,
      (runAction w c feed finalStats).outcome = (runAction w c feed2 finalStats2).outcome := by
  refine ⟨?_, ?_⟩
  · intro feed finalStats
    rw [runAction_of_valid w c feed finalStats hn hd hne]
  · intro feed finalStats feed2 finalStats2
    rw [runAction_of_valid w c feed finalStats hn hd hne,
      runAction_of_valid w c feed2 finalStats2 hn hd hne]

/-- Witness of C5: a run in which every file failed. -/
theorem run_result_independent_of_events_witness :
    (runAction ⟨fun _ => true, id, 0, fun _ => none⟩ (runCliContext false false {} ["/s", "/d"])
        [.send ⟨"/s/a.jpg"⟩ { scanned := 1, failed := 1 }] { scanned := 1, failed := 1 }).outcome
      = .returned none :=
  (run_result_independent_of_events ⟨fun _ => true, id, 0, fun _ => none⟩
    (runCliContext false false {} ["/s", "/d"]) (by decide) rfl (by decide)).1 _ _

/-- C6, as stated, fails: on an accepted directory and an index whose engine
answers the statement with an error, the stored path `/dst/photo/.jpg` is not
rewritten: the rows stay as they were and `Catch` stops the process with the
error of the engine. -/
theorem fixdb_engine_error_keeps_paths :
    (fixdbAction ⟨fun _ => true, id, 0, fun _ => none⟩ (plainCliContext false false ["/dst"])
        { rows := [{ path := "/dst/photo/.jpg" }],
          execError := some "database is locked" }).2.rows
      ≠ List.map (fun r : FileRow => { r with path := replaceSlashDotPath r.path })
          [{ path := "/dst/photo/.jpg" }] ∧
    (fixdbAction ⟨fun _ => true, id, 0, fun _ => none⟩ (plainCliContext false false ["/dst"])
        { rows := [{ path := "/dst/photo/.jpg" }],
          execError := some "database is locked" }).2.rows
      = [{ path := "/dst/photo/.jpg" }] ∧
    (fixdbAction ⟨fun _ => true, id, 0, fun _ => none⟩ (plainCliContext false false ["/dst"])
        { rows := [{ path := "/dst/photo/.jpg" }],
          execError := some "database is locked" }).1.outcome
      = .aborted "database is locked" := by
  refine ⟨by decide, rfl, rfl⟩

/-- C6, amended: for every index whose engine executes the statement without
error and every directory accepted by `fixdb`, the action returns `nil` and
leaves every row
with the path obtained from its previous path by the left-to-right,
non-overlapping replacement of `/.` by `.`, the other columns untouched; the
update reaches all rows, and a row whose path does not contain `/.` is left
as it was. -/
theorem fixdb_rewrites_every_path (w : World) (c : Context) (db : IndexDb)
    (hdir : c.argFirst ≠ "") (hd : w.isDir c.argFirst = true) (hexec : db.execError = none) :
    (fixdbAction w c db).1.outcome = .returned none ∧
    (fixdbAction w c db).2.rows =
      db.rows.map (fun r => { r with path := replaceSlashDotPath r.path }) ∧
    (∀ r : FileRow, ¬ ['/', '.'] <:+: r.path.data →
      { r with path := replaceSlashDotPath r.path } = r) := by
  rw [fixdbAction_of_accepted w c db hdir hd]
  refine ⟨?_, ?_, ?_⟩
  · simp [execFixdb, hexec, Catch]
  · simp [execFixdb, hexec, fixdbRewrite_eq]
  · intro r hr
    cases r with
    | mk path other =>
      simp only [replaceSlashDotPath, replaceSlashDot_of_absent path.data hr]

/-- Witness of C6: an index of three rows, one of them without `/.`. -/
theorem fixdb_rewrites_every_path_witness :
    (fixdbAction ⟨fun _ => true, id, 0, fun _ => none⟩ (plainCliContext false false ["/dst"])
        { rows := [{ path := "/dst/photo/.jpg" }, { path := "/dst/a.jpg" },
          { path := "/x/.y/.z" }] }).2.rows
      = [{ path := "/dst/photo.jpg" }, { path := "/dst/a.jpg" }, { path := "/x.y.z" }] :=
  (fixdb_rewrites_every_path ⟨fun _ => true, id, 0, fun _ => none⟩
    (plainCliContext false false ["/dst"])
    { rows := [{ path := "/dst/photo/.jpg" }, { path := "/dst/a.jpg" },
      { path := "/x/.y/.z" }] } (by decide) rfl rfl).2.1

/-- C7, as stated, fails: `fixdb` on an accepted directory hands to `InitDb` a
context whose source directory equals its destination directory. -/
theorem fixdb_context_dirs_equal :
    Effect.initDb (fixdbContext (plainCliContext false false ["/dst"])) ∈
        (fixdbAction ⟨fun _ => true, id, 0, fun _ => none⟩ (plainCliContext false false ["/dst"])
          { rows := [] }).1.trace ∧
      (fixdbContext (plainCliContext false false ["/dst"])).SrcDir =
        (fixdbContext (plainCliContext false false ["/dst"])).DestDir :=
  ⟨by decide, rfl⟩

/-- C7, amended: every context that `run` hands to the pipeline (to
`TidyRoutine` or `PrintAppStats`) has a source directory different from its
destination directory, while the contexts that `rescan` and `fixdb` build have
both directories equal to the directory argument. -/
theorem run_context_dirs_differ (w : World) (c : Context) (feed : List ChanStep)
    (finalStats : AppRunStats) :
    (∀ e ∈ (runAction w c feed finalStats).trace, ∀ ctx, e.context = some ctx →
      ctx = runContext w c ∧ ctx.SrcDir ≠ ctx.DestDir) ∧
    ((rescanContext w c).SrcDir = c.argFirst ∧ (rescanContext w c).DestDir = c.argFirst) ∧
    ((fixdbContext c).SrcDir = c.argFirst ∧ (fixdbContext c).DestDir = c.argFirst) := by
  refine ⟨?_, ⟨rfl, rfl⟩, ⟨rfl, rfl⟩⟩
  intro e he ctx hctx
  by_cases hv : 2 ≤ c.NArg ∧ w.isDir (w.abs (c.argGet 0)) = true ∧
      w.abs (c.argGet 0) ≠ w.abs (c.argGet 1)
  · obtain ⟨hn, hd, hne⟩ := hv
    rw [runAction_of_valid w c feed finalStats hn hd hne, consume_eq_map] at he
    have hc : ctx = runContext w c := by
      simp only [List.mem_append, List.mem_cons, List.mem_map, List.mem_singleton,
        List.not_mem_nil, or_false] at he
      rcases he with ((h | h) | ⟨a, _, h⟩) | (h | h | h)
      all_goals subst h
      all_goals simp only [Effect.context, Option.some.injEq] at hctx
      all_goals first
        | exact hctx.symm
        | cases hctx
    refine ⟨hc, ?_⟩
    rw [hc]
    exact hne
  · rw [runAction_of_invalid w c feed finalStats hv] at he
    cases he

/-- Witness of C7, amended: the context that a valid `run` hands to
`TidyRoutine`. -/
theorem run_context_dirs_differ_witness :
    (runContext ⟨fun _ => true, id, 0, fun _ => none⟩
        (runCliContext false false {} ["/s", "/d"])).SrcDir ≠
      (runContext ⟨fun _ => true, id, 0, fun _ => none⟩
        (runCliContext false false {} ["/s", "/d"])).DestDir :=
  ((run_context_dirs_differ ⟨fun _ => true, id, 0, fun _ => none⟩
    (runCliContext false false {} ["/s", "/d"]) [] {}).1
    (.goTidyRoutine (runContext ⟨fun _ => true, id, 0, fun _ => none⟩
      (runCliContext false false {} ["/s", "/d"])))
    (by simp [runAction, runContext, runCliContext, Context.NArg, Context.argGet])
    _ rfl).2

/-- C8 fails on the code: the action of `rescan` makes no call at all, for
every argument; in particular it never opens the index with `InitDb` and
executes no statement on it. On an existing directory it returns `nil` with an
empty trace, where `fixdb` on the same input does open the index. -/
theorem rescan_performs_no_index_call :
    (∀ (w : World) (c : Context), (rescanAction w c).trace = [] ∧
      (rescanAction w c).trace.any Effect.isIndexCall = false) ∧
    rescanAction ⟨fun _ => true, id, 0, fun _ => none⟩ (plainCliContext false false ["/dst"])
      = ⟨[], .returned none⟩ ∧
    (fixdbAction ⟨fun _ => true, id, 0, fun _ => none⟩ (plainCliContext false false ["/dst"])
      { rows := [] }).1.trace.any Effect.isIndexCall = true := by
  refine ⟨?_, rfl, rfl⟩
  intro w c
  have ht : (rescanAction w c).trace = [] := by
    simp only [rescanAction]
    split_ifs <;> rfl
  exact ⟨ht, by rw [ht]; rfl⟩

/-- C9 fails on the code: the context built by `run` takes `DryRun` and `Quiet`
from the flags given after the command name only, whatever is given at the top
level; with both top-level flags set and none after the command name both
fields are `false`, while `rescan`, which declares no flag of its own, reads
the top-level values. -/
theorem run_ignores_global_flags :
    (∀ (w : World) (g q : Bool) (o : RunOptions) (args : List String),
      (runContext w (runCliContext g q o args)).DryRun = o.dryRun ∧
      (runContext w (runCliContext g q o args)).Quiet = o.quiet) ∧
    (∀ (w : World) (args : List String),
      (runContext w (runCliContext true true {} args)).DryRun = false ∧
      (runContext w (runCliContext true true {} args)).Quiet = false) ∧
    (∀ (w : World) (g q : Bool) (args : List String),
      (rescanContext w (plainCliContext g q args)).DryRun = g ∧
      (rescanContext w (plainCliContext g q args)).Quiet = q) := by
  refine ⟨?_, ?_, ?_⟩
  · intro w g q o args
    constructor
    · show (runCliContext g q o args).boolFlag "dry-run" = o.dryRun
      cases h : o.dryRun <;>
        simp [Context.boolFlag, Context.lookupText, Context.lookupFlagSet, runCliContext,
          runFlagSet, List.lookup, FlagValue.text, parseBool, h]
    · show (runCliContext g q o args).boolFlag "quiet" = o.quiet
      cases h : o.quiet <;>
        simp [Context.boolFlag, Context.lookupText, Context.lookupFlagSet, runCliContext,
          runFlagSet, List.lookup, FlagValue.text, parseBool, h]
  · intro w args
    exact ⟨rfl, rfl⟩
  · intro w g q args
    constructor
    · show (plainCliContext g q args).boolFlag "dry-run" = g
      cases g <;> rfl
    · show (plainCliContext g q args).boolFlag "quiet" = q
      cases q <;> cases g <;> rfl

/-- C10, as stated, fails: on the stored path `/a//.jpg` the second rewrite
changes the result of the first, which still contains `/.`. -/
theorem fixdb_rewrite_not_idempotent :
    fixdbRewrite "/a//.jpg" = "/a/.jpg" ∧
    fixdbRewrite (fixdbRewrite "/a//.jpg") = "/a.jpg" ∧
    fixdbRewrite (fixdbRewrite "/a//.jpg") ≠ fixdbRewrite "/a//.jpg" ∧
    ['/', '.'] <:+: (fixdbRewrite "/a//.jpg").data := by
  refine ⟨by decide, by decide, by decide, ?_⟩
  exact ⟨['/', 'a'], ['j', 'p', 'g'], by decide⟩

/-- C10, amended: for every stored path that does not contain `//.`,
rewriting twice gives the same path as rewriting once, and after one rewrite
the path no longer contains `/.`. -/
theorem fixdb_rewrite_idempotent_without_double_slash (p : String)
    (h : ¬ ['/', '/', '.'] <:+: p.data) :
    fixdbRewrite (fixdbRewrite p) = fixdbRewrite p ∧
    ¬ ['/', '.'] <:+: (fixdbRewrite p).data := by
  have hno : ¬ ['/', '.'] <:+: (fixdbRewrite p).data := by
    rw [fixdbRewrite_data]
    intro hin
    exact h (slashSlashDot_of_slashDot_after p.data hin)
  refine ⟨?_, hno⟩
  rw [fixdbRewrite_eq (fixdbRewrite p)]
  simp only [replaceSlashDotPath, replaceSlashDot_of_absent _ hno]

/-- Witness of C10, amended: the path `/dst/photo/.jpg`. -/
theorem fixdb_rewrite_idempotent_without_double_slash_witness :
    fixdbRewrite (fixdbRewrite "/dst/photo/.jpg") = fixdbRewrite "/dst/photo/.jpg" ∧
    ¬ ['/', '.'] <:+: (fixdbRewrite "/dst/photo/.jpg").data :=
  fixdb_rewrite_idempotent_without_double_slash "/dst/photo/.jpg" (by decide)

end Tidymeup
